import Mathlib

/-!
Shallow embedding of the text-to-speech acquisition and playback engine of
`src/services/geminiService.ts`: the base64 PCM decoder (`decodeBase64`,
`pcmToAudioBuffer`), the single-flight fetch cache (`prefetchTTS`, split at its
single await point into `prefetchStart` and `prefetchComplete`), and the
playback controller (`stopAudio` and `playTTS`, the latter modelled as an
event-step machine over interleavings produced by the cooperative
single-threaded JS scheduler).
-/

/-- One of the ASCII whitespace characters removed by the forgiving-base64
decode underlying the JS `atob` (tab, LF, FF, CR, space). -/
def isB64Ws (c : Char) : Bool :=
  c == ' ' || c == Char.ofNat 9 || c == Char.ofNat 10 ||
    c == Char.ofNat 12 || c == Char.ofNat 13

/-- Value of one character of the standard base64 alphabet; `none` for any
character outside the alphabet (including a non-trailing padding sign). -/
def b64Val (c : Char) : Option Nat :=
  if 'A' ≤ c ∧ c ≤ 'Z' then some (c.toNat - 65)
  else if 'a' ≤ c ∧ c ≤ 'z' then some (c.toNat - 97 + 26)
  else if '0' ≤ c ∧ c ≤ '9' then some (c.toNat - 48 + 52)
  else if c == '+' then some 62
  else if c == '/' then some 63
  else none

/-- Reassemble bytes from 6-bit groups as the `atob` bit buffer does: four
groups give three bytes; two or three trailing groups give one or two bytes,
the leftover low bits being discarded without validation. -/
def b64Chunks : List Nat → List Nat
  | a :: b :: c :: d :: rest =>
      (a * 4 + b / 16) :: ((b % 16) * 16 + c / 4) :: ((c % 4) * 64 + d) :: b64Chunks rest
  | [a, b] => [a * 4 + b / 16]
  | [a, b, c] => [a * 4 + b / 16, (b % 16) * 16 + c / 4]
  | _ => []

/-- Strip one or two trailing padding signs when the length is a multiple of
four (forgiving-base64, step 2). -/
def stripPadding (l : List Char) : List Char :=
  if l.length % 4 == 0 then
    match l.reverse with
    | '=' :: '=' :: rest => rest.reverse
    | '=' :: rest => rest.reverse
    | _ => l
  else l

/-- `decodeBase64` from the source: `atob` (the WHATWG forgiving-base64
decode) followed by reading each code unit of the returned binary string into
a `Uint8Array`.  `none` models the `InvalidCharacterError` thrown by `atob`
on malformed input (length 1 mod 4 after stripping, or a character outside
the alphabet). -/
def decodeBase64 (s : String) : Option (List Nat) :=
  let cs := stripPadding (s.data.filter (fun c => !isB64Ws c))
  if cs.length % 4 == 1 then none
  else (cs.mapM b64Val).map b64Chunks

/-- The slice of a Web Audio `AudioBuffer` that the source observes: channel
count, sample rate, and the single channel's sample data (exact rationals:
each stored value `v / 32768` with `v` a 16-bit integer is exactly
representable in the underlying 32-bit float, so ℚ is a faithful model). -/
structure AudioBuffer where
  numberOfChannels : Nat
  sampleRate : Nat
  samples : List ℚ
deriving DecidableEq

/-- Reinterpret two bytes as one little-endian signed 16-bit integer, as the
`Int16Array` view over the `Uint8Array`'s buffer does on a little-endian
platform. -/
def toInt16 (lo hi : Nat) : ℤ :=
  if lo % 256 + 256 * (hi % 256) < 32768 then ((lo % 256 + 256 * (hi % 256) : Nat) : ℤ)
  else ((lo % 256 + 256 * (hi % 256) : Nat) : ℤ) - 65536

/-- `pcmToAudioBuffer` from the source.  `new Int16Array(data.buffer,
data.byteOffset, data.length / 2)` passes the JS float `data.length / 2`
through ToIndex, which truncates it to an integer, so an odd trailing byte is
silently dropped; each sample is the signed 16-bit value divided by 32768.0,
in a one-channel buffer carrying the given sample rate. -/
def pcmToAudioBuffer (data : List Nat) (sampleRate : Nat) : AudioBuffer :=
  { numberOfChannels := 1
    sampleRate := sampleRate
    samples := (List.range (data.length / 2)).map (fun i =>
      ((toInt16 (data.getD (2 * i) 0) (data.getD (2 * i + 1) 0) : ℤ) : ℚ) / 32768) }

/-! ## The fetch cache

`prefetchTTS` runs synchronously from its entry to the call that starts the
Synthesizer request (there is no `await` between the `audioCache.has` check,
the `pendingRequests.has` check, the start of the inner async closure, and
`pendingRequests.set`), and then suspends inside the closure until the
request settles.  On the single-threaded JS scheduler the function therefore
decomposes into two atomic segments: `prefetchStart` (everything before the
suspension) and `prefetchComplete` (the `then`/`catch`/`finally` part of the
closure, run when the Synthesizer promise settles).  State threaded through
both is `TTSState`; `synthCalls` is a log of every Synthesizer request ever
issued, newest first, and `decodeLog` logs each text for which
`pcmToAudioBuffer` was executed by `playTTS`. -/

/-- The voice identifiers admitted by the source's
`voiceName: 'Kore' | 'Puck' | 'Charon'` parameter type. -/
inductive VoiceId
  | Kore
  | Puck
  | Charon
deriving DecidableEq

/-- The module-level mutable state of the fetch cache (`audioCache`,
`pendingRequests`), extended with observation logs: `synthCalls` records each
Synthesizer invocation as (request id, text, voice), and `decodeLog` records
each execution of `pcmToAudioBuffer` during playback.  Pending requests are
identified by a monotone counter `nextId` standing for the promise object
stored in `pendingRequests`. -/
structure TTSState where
  audioCache : List (String × List Nat)
  pendingRequests : List (String × Nat)
  synthCalls : List (Nat × String × VoiceId)
  nextId : Nat
  decodeLog : List String
deriving DecidableEq

/-- `Map.get` on a JS `Map`, modelled as an association list. -/
def mapGet {α : Type} (m : List (String × α)) (k : String) : Option α :=
  match m with
  | [] => none
  | (k1, v) :: rest => if k1 = k then some v else mapGet rest k

/-- `Map.set`: overwrite any existing binding for the key. -/
def mapSet {α : Type} (m : List (String × α)) (k : String) (v : α) :
    List (String × α) :=
  (k, v) :: m.filter (fun p => p.1 != k)

/-- `Map.delete`. -/
def mapDelete {α : Type} (m : List (String × α)) (k : String) :
    List (String × α) :=
  m.filter (fun p => p.1 != k)

/-- What a `prefetchTTS` caller gets back: an already-resolved promise when
the text is cached, the shared in-flight promise of an earlier caller, or a
freshly started request's promise. -/
inductive PrefetchResult
  | alreadyCached
  | waitOn (id : Nat)
  | started (id : Nat)
deriving DecidableEq

/-- The synchronous prefix of `prefetchTTS`: return early on a cache hit,
join an existing pending request, or register a new pending entry and issue
the Synthesizer call. -/
def prefetchStart (text : String) (voice : VoiceId) (s : TTSState) :
    TTSState × PrefetchResult :=
  match mapGet s.audioCache text with
  | some _ => (s, .alreadyCached)
  | none =>
    match mapGet s.pendingRequests text with
    | some id => (s, .waitOn id)
    | none =>
      ({ s with
          pendingRequests := mapSet s.pendingRequests text s.nextId
          synthCalls := (s.nextId, text, voice) :: s.synthCalls
          nextId := s.nextId + 1 },
        .started s.nextId)

/-- How the awaited Synthesizer promise settles: fulfilled with an optional
inline base64 payload (`none` models a response with no
`candidates[0].content.parts[0].inlineData.data`), or rejected. -/
inductive SynthResult
  | success (payload : Option String)
  | failure
deriving DecidableEq

/-- The body of the `try` block after the `await`: a rejected request
re-raises; a fulfilled one stores the base64-decoded bytes when the payload
is truthy (JS: `if (base64Audio)`, false for `undefined` and for the empty
string) and decoding does not throw. -/
def prefetchTryBody (text : String) (r : SynthResult) (s : TTSState) :
    Except String TTSState :=
  match r with
  | .failure => .error "SynthesisError"
  | .success none => .ok s
  | .success (some b64) =>
    if b64 = "" then .ok s
    else
      match decodeBase64 b64 with
      | none => .error "InvalidCharacterError"
      | some bytes => .ok { s with audioCache := mapSet s.audioCache text bytes }

/-- The completion segment of `prefetchTTS`: run the `try` body, swallow any
error in the `catch` (only `console.error` there), and delete the pending
entry in the `finally`.  The boolean is `true` when the promise returned to
the caller fulfills (it always does: nothing re-raises after the catch). -/
def prefetchComplete (text : String) (r : SynthResult) (s : TTSState) :
    TTSState × Bool :=
  let s1 :=
    match prefetchTryBody text r s with
    | .ok s2 => s2
    | .error _ => s
  ({ s1 with pendingRequests := mapDelete s1.pendingRequests text }, true)

/-- Issue a sequence of `prefetchTTS` calls for the same text back to back
(no completion in between), collecting each caller's result. -/
def iterPrefetch (text : String) (vs : List VoiceId) (s : TTSState) :
    TTSState × List PrefetchResult :=
  match vs with
  | [] => (s, [])
  | v :: rest =>
    let p := prefetchStart text v s
    let q := iterPrefetch text rest p.1
    (q.1, p.2 :: q.2)

/-- How `playTTS` obtains its bytes (the section between its entry and the
construction of the source node): a synchronous cache hit, a wait on another
caller's pending request, or a fresh fetch via `prefetchTTS`. -/
inductive PlayResolveAction
  | usedCache (bytes : List Nat)
  | awaitedPending (id : Nat)
  | fetchedFresh (id : Nat)
deriving DecidableEq

/-- The audio-resolution section of `playTTS`: read the cache; on a miss,
either await the existing pending request or call `prefetchTTS`.  There is no
suspension between the cache read and the branch taken, so the section is
atomic on the JS scheduler. -/
def playAcquire (text : String) (voice : VoiceId) (s : TTSState) :
    TTSState × PlayResolveAction :=
  match mapGet s.audioCache text with
  | some bytes => (s, .usedCache bytes)
  | none =>
    match mapGet s.pendingRequests text with
    | some id => (s, .awaitedPending id)
    | none => ((prefetchStart text voice s).1, .fetchedFresh s.nextId)

/-- The playback-preparation step of `playTTS` after resolution: re-read the
cache and, when bytes are present, run `pcmToAudioBuffer(pcmBytes, ctx,
24000)` (logged in `decodeLog`) to build the buffer handed to the source
node. -/
def playUseAudio (text : String) (s : TTSState) :
    TTSState × Option AudioBuffer :=
  match mapGet s.audioCache text with
  | some bytes =>
    ({ s with decodeLog := text :: s.decodeLog },
      some (pcmToAudioBuffer bytes 24000))
  | none => (s, none)

/-- The state at module load: empty cache, no pending requests, no
Synthesizer calls issued. -/
def initTTS : TTSState := ⟨[], [], [], 0, []⟩

/-! ## The playback controller

`playTTS` is an async function with suspension points (the optional
`ctx.resume()` and the audio resolution), so several calls can be in flight
at once on the JS scheduler.  We model an execution as a list of atomic
events: `playStart c` is the synchronous entry of call `c` (which runs
`stopAudio()`), `playResolved c hasAudio` is the continuation after call
`c`'s audio resolution (source creation and `source.start(0)` on success,
the immediate `onEnded()` on failure), `sourceEnded c` is the delivery of the
`ended` event of the source created by call `c` (fired both when the buffer
finishes and after `stop()`), and `stopCall` is an external `stopAudio()`.
Each play call creates at most one source node, so sources are identified by
their call id. -/

/-- The playback-side mutable state: the module-level `currentSource`
variable, the set of source nodes currently producing sound, the set of
sources already halted (stopped or finished), and the log of `onEnded`
invocations (by call id, newest first). -/
structure PlayState where
  currentSource : Option Nat
  audible : List Nat
  halted : List Nat
  endedEvents : List Nat
deriving DecidableEq

/-- The state at module load. -/
def initPlay : PlayState := ⟨none, [], [], []⟩

/-- `source.stop()` on the node `c`: an error signals the Web Audio
`InvalidStateError` family that the source guards against; otherwise the
node stops producing sound and is marked halted. -/
def sourceStop (s : PlayState) (c : Nat) : Except Unit PlayState :=
  if c ∈ s.halted then .error ()
  else .ok { s with audible := s.audible.filter (fun x => x != c), halted := c :: s.halted }

/-- `stopAudio` from the source: when a current source is tracked, call
`stop()` on it inside `try { } catch { }` (errors ignored), then clear
`currentSource`.  A no-op when `currentSource` is `null`. -/
def stopAudio (s : PlayState) : PlayState :=
  match s.currentSource with
  | none => s
  | some c =>
    match sourceStop s c with
    | .ok s1 => { s1 with currentSource := none }
    | .error _ => { s with currentSource := none }

/-- Atomic events of an interleaved execution of `playTTS` calls. -/
inductive PlayEvent
  | playStart (callId : Nat)
  | playResolved (callId : Nat) (hasAudio : Bool)
  | sourceEnded (callId : Nat)
  | stopCall
deriving DecidableEq

/-- Effect of one event, read off the source: `playTTS` entry runs
`stopAudio()`; a resolution with bytes creates, tracks and starts a source
(`currentSource = source; source.start(0)`); a resolution without bytes
invokes `onEnded` immediately; the `ended` handler clears `currentSource`
only if this source is still the tracked one, and then invokes `onEnded`
unconditionally. -/
def step (s : PlayState) (e : PlayEvent) : PlayState :=
  match e with
  | .playStart _ => stopAudio s
  | .stopCall => stopAudio s
  | .playResolved c hasAudio =>
    if hasAudio then { s with currentSource := some c, audible := c :: s.audible }
    else { s with endedEvents := c :: s.endedEvents }
  | .sourceEnded c =>
    { currentSource := if s.currentSource = some c then none else s.currentSource
      audible := s.audible.filter (fun x => x != c)
      halted := c :: s.halted
      endedEvents := c :: s.endedEvents }

/-- Run a trace of events from a state. -/
def runTrace (t : List PlayEvent) (s : PlayState) : PlayState :=
  t.foldl step s

/-- The call id an event belongs to. -/
def eventId : PlayEvent → Option Nat
  | .playStart c => some c
  | .playResolved c _ => some c
  | .sourceEnded c => some c
  | .stopCall => none

/-- All call ids mentioned in a trace. -/
def callIds (t : List PlayEvent) : List Nat := t.filterMap eventId

/-- Number of `playStart c` events in a trace. -/
def countStart (t : List PlayEvent) (c : Nat) : Nat :=
  t.count (.playStart c)

/-- Number of `playResolved c true` events in a trace. -/
def countResolvedTrue (t : List PlayEvent) (c : Nat) : Nat :=
  t.count (.playResolved c true)

/-- Number of `playResolved c false` events in a trace. -/
def countResolvedFalse (t : List PlayEvent) (c : Nat) : Nat :=
  t.count (.playResolved c false)

/-- Number of `sourceEnded c` events in a trace. -/
def countEnded (t : List PlayEvent) (c : Nat) : Nat :=
  t.count (.sourceEnded c)

/-- Structural constraints every realizable trace satisfies: a call enters at
most once, resolves at most once, its source is created at most once and can
only deliver an `ended` event if it was created (`playResolved c true`). -/
def ValidTrace (t : List PlayEvent) : Prop :=
  ∀ c ∈ callIds t,
    countStart t c ≤ 1 ∧
    countResolvedTrue t c + countResolvedFalse t c ≤ 1 ∧
    countEnded t c ≤ 1 ∧
    countEnded t c ≤ countResolvedTrue t c

/-- A trace is complete when every created source has delivered its `ended`
event: a started `AudioBufferSourceNode` fires `ended` exactly once, when its
buffer runs out or after `stop()`. -/
def CompleteTrace (t : List PlayEvent) : Prop :=
  ∀ c ∈ callIds t, countResolvedTrue t c ≤ countEnded t c

/-! ## Basic lemmas about the map model -/

theorem mapGet_mapSet_self {α : Type} (m : List (String × α)) (k : String)
    (v : α) : mapGet (mapSet m k v) k = some v := by
  simp [mapGet, mapSet]

theorem mapGet_mapDelete_self {α : Type} (m : List (String × α)) (k : String) :
    mapGet (mapDelete m k) k = none := by
  induction m with
  | nil => rfl
  | cons p rest ih =>
    rcases p with ⟨k1, v⟩
    by_cases h : k1 = k
    · simpa [mapDelete, List.filter_cons, h] using ih
    · simpa [mapDelete, List.filter_cons, h, mapGet] using ih

theorem prefetchStart_audioCache (text : String) (v : VoiceId) (s : TTSState) :
    (prefetchStart text v s).1.audioCache = s.audioCache := by
  unfold prefetchStart
  rcases mapGet s.audioCache text with _ | b
  · rcases mapGet s.pendingRequests text with _ | i <;> rfl
  · rfl

/-- Closed form of `stopAudio`. -/
theorem stopAudio_eq (s : PlayState) :
    stopAudio s =
      match s.currentSource with
      | none => s
      | some c =>
        if c ∈ s.halted then { s with currentSource := none }
        else { s with currentSource := none,
                      audible := s.audible.filter (fun x => x != c),
                      halted := c :: s.halted } := by
  unfold stopAudio sourceStop
  rcases s.currentSource with _ | c
  · rfl
  · by_cases hh : c ∈ s.halted
    · simp [hh]
    · simp [hh]

theorem stopAudio_currentSource (s : PlayState) :
    (stopAudio s).currentSource = none := by
  rw [stopAudio_eq]
  rcases hc : s.currentSource with _ | c
  · exact hc
  · by_cases hh : c ∈ s.halted <;> simp [hh]

theorem stopAudio_of_none {s : PlayState} (h : s.currentSource = none) :
    stopAudio s = s := by
  unfold stopAudio
  rw [h]

theorem stopAudio_endedEvents (s : PlayState) :
    (stopAudio s).endedEvents = s.endedEvents := by
  rw [stopAudio_eq]
  rcases s.currentSource with _ | c
  · rfl
  · by_cases hh : c ∈ s.halted <;> simp [hh]

/-! ## Claim theorems -/

/-- C8: `stopAudio` is idempotent and total: it never raises (the `try`
block's error is swallowed), always leaves `currentSource` cleared so the
state is idle, is a no-op when already idle, silences the tracked source
when it was still live, and still transitions to idle when halting the
tracked source raised because it was already halted or finished. -/
theorem stopAudio_idempotent_total (s : PlayState) :
    (stopAudio s).currentSource = none ∧
    stopAudio (stopAudio s) = stopAudio s ∧
    (s.currentSource = none → stopAudio s = s) ∧
    (∀ c, s.currentSource = some c → c ∉ s.halted →
      c ∉ (stopAudio s).audible) ∧
    (∀ c, s.currentSource = some c → c ∈ s.halted →
      stopAudio s = { s with currentSource := none }) := by
  refine ⟨stopAudio_currentSource s,
          stopAudio_of_none (stopAudio_currentSource s),
          fun h => stopAudio_of_none h, ?_, ?_⟩
  · intro c hcur hh
    rw [stopAudio_eq, hcur]
    simp [hh, List.mem_filter]
  · intro c hcur hh
    rw [stopAudio_eq, hcur]
    simp [hh]

/-- Witness for C8 at concrete states: a playing state with a live source,
and an idle state. -/
theorem stopAudio_idempotent_total_witness :
    (stopAudio ⟨some 7, [7], [], []⟩).currentSource = none ∧
    stopAudio (stopAudio ⟨some 7, [7], [], []⟩) = stopAudio ⟨some 7, [7], [], []⟩ ∧
    (7 : Nat) ∉ (stopAudio ⟨some 7, [7], [], []⟩).audible ∧
    stopAudio ⟨none, [], [], [0]⟩ = ⟨none, [], [], [0]⟩ :=
  ⟨(stopAudio_idempotent_total ⟨some 7, [7], [], []⟩).1,
   (stopAudio_idempotent_total ⟨some 7, [7], [], []⟩).2.1,
   (stopAudio_idempotent_total ⟨some 7, [7], [], []⟩).2.2.2.1 7 rfl (by simp),
   (stopAudio_idempotent_total ⟨none, [], [], [0]⟩).2.2.1 rfl⟩

/-- C10: when the Synthesizer promise fulfills but the response carries no
inline audio payload, `prefetchTTS` stores nothing, removes the pending
entry, and its promise still fulfills normally — observationally identical
to the failure case. -/
theorem missing_payload_resolves_empty (s : TTSState) (text : String) :
    (prefetchComplete text (.success none) s).1.audioCache = s.audioCache ∧
    mapGet (prefetchComplete text (.success none) s).1.pendingRequests text = none ∧
    (prefetchComplete text (.success none) s).2 = true ∧
    (prefetchComplete text (.success none) s).1.synthCalls = s.synthCalls ∧
    prefetchComplete text (.success none) s = prefetchComplete text .failure s := by
  refine ⟨rfl, ?_, rfl, rfl, rfl⟩
  exact mapGet_mapDelete_self s.pendingRequests text

/-- C5: when the synthesis or decode attempt fails, `prefetchTTS` stores
nothing in the cache, removes the pending entry (so its promise — shared by
all waiters — fulfills rather than rejecting: the error is swallowed by the
`catch`), and a later request for the same text starts a fresh Synthesizer
call.  The decode-failure path — a fulfilled response whose payload makes
`atob` throw — takes the same `catch`/`finally` route and produces a state
identical to the synthesis-failure case, so every conjunct carries over to
it. -/
theorem prefetch_failure_clean (s : TTSState) (text : String) (v : VoiceId)
    (hc : mapGet s.audioCache text = none) :
    (prefetchComplete text .failure s).1.audioCache = s.audioCache ∧
    mapGet (prefetchComplete text .failure s).1.pendingRequests text = none ∧
    (prefetchComplete text .failure s).2 = true ∧
    (prefetchStart text v (prefetchComplete text .failure s).1).2
      = .started s.nextId ∧
    (prefetchStart text v (prefetchComplete text .failure s).1).1.synthCalls
      = (s.nextId, text, v) :: s.synthCalls ∧
    ∀ b64 : String, decodeBase64 b64 = none →
      prefetchComplete text (.success (some b64)) s
        = prefetchComplete text .failure s := by
  refine ⟨rfl, mapGet_mapDelete_self s.pendingRequests text, rfl, ?_, ?_, ?_⟩
  · simp [prefetchComplete, prefetchTryBody, prefetchStart, hc,
      mapGet_mapDelete_self]
  · simp [prefetchComplete, prefetchTryBody, prefetchStart, hc,
      mapGet_mapDelete_self]
  · intro b64 hd
    have hne : b64 ≠ "" := by
      intro h
      subst h
      have hempty : decodeBase64 "" = some [] := by decide
      rw [hempty] at hd
      exact Option.noConfusion hd
    simp [prefetchComplete, prefetchTryBody, hne, hd]

/-- Witness for C5 at the empty initial state; the decode-failure conjunct
is exercised on the payload "A", on which `atob` throws (length 1 mod 4). -/
theorem prefetch_failure_clean_witness :
    (prefetchComplete "hi" .failure initTTS).1.audioCache = initTTS.audioCache ∧
    mapGet (prefetchComplete "hi" .failure initTTS).1.pendingRequests "hi" = none ∧
    (prefetchComplete "hi" .failure initTTS).2 = true ∧
    (prefetchStart "hi" .Kore (prefetchComplete "hi" .failure initTTS).1).2
      = .started 0 ∧
    (prefetchStart "hi" .Kore (prefetchComplete "hi" .failure initTTS).1).1.synthCalls
      = [(0, "hi", .Kore)] ∧
    prefetchComplete "hi" (.success (some "A")) initTTS
      = prefetchComplete "hi" .failure initTTS := by
  have h := prefetch_failure_clean initTTS "hi" .Kore rfl
  exact ⟨h.1, h.2.1, h.2.2.1, h.2.2.2.1, h.2.2.2.2.1,
    h.2.2.2.2.2 "A" (by decide)⟩

/-- Helper for C2: while a request for `text` is pending and the text is
uncached, any further `prefetchTTS` call for it leaves the state unchanged
and returns the shared pending promise. -/
theorem iterPrefetch_pending (text : String) (i : Nat) (vs : List VoiceId) :
    ∀ s : TTSState, mapGet s.audioCache text = none →
      mapGet s.pendingRequests text = some i →
      iterPrefetch text vs s = (s, vs.map fun _ => PrefetchResult.waitOn i) := by
  induction vs with
  | nil => intro s _ _; rfl
  | cons v rest ih =>
    intro s hc hp
    have h1 : prefetchStart text v s = (s, .waitOn i) := by
      simp [prefetchStart, hc, hp]
    simp [iterPrefetch, h1, ih s hc hp]

/-- C2: from a state where `text` is neither cached nor pending, the first
`prefetchTTS` call issues exactly one Synthesizer request and registers its
promise; any number of further calls for the same text before completion
issue no request at all (the state, including the `synthCalls` log, is
untouched) and every one of them receives the same shared promise
`s.nextId`, so all callers observe that one request's eventual outcome. -/
theorem single_flight (s : TTSState) (text : String) (v : VoiceId)
    (vs : List VoiceId)
    (hc : mapGet s.audioCache text = none)
    (hp : mapGet s.pendingRequests text = none) :
    (prefetchStart text v s).2 = .started s.nextId ∧
    (prefetchStart text v s).1.synthCalls = (s.nextId, text, v) :: s.synthCalls ∧
    iterPrefetch text vs (prefetchStart text v s).1
      = ((prefetchStart text v s).1,
         vs.map fun _ => PrefetchResult.waitOn s.nextId) := by
  have hstart : prefetchStart text v s
      = ({ s with pendingRequests := mapSet s.pendingRequests text s.nextId,
                  synthCalls := (s.nextId, text, v) :: s.synthCalls,
                  nextId := s.nextId + 1 }, .started s.nextId) := by
    simp [prefetchStart, hc, hp]
  refine ⟨by rw [hstart], by rw [hstart], ?_⟩
  rw [hstart]
  exact iterPrefetch_pending text s.nextId vs _ hc
    (mapGet_mapSet_self s.pendingRequests text s.nextId)

/-- Witness for C2: three back-to-back prefetch calls for one text. -/
theorem single_flight_witness :
    (prefetchStart "hi" .Kore initTTS).2 = .started 0 ∧
    (prefetchStart "hi" .Kore initTTS).1.synthCalls = [(0, "hi", .Kore)] ∧
    iterPrefetch "hi" [.Puck, .Charon] (prefetchStart "hi" .Kore initTTS).1
      = ((prefetchStart "hi" .Kore initTTS).1, [.waitOn 0, .waitOn 0]) := by
  have h := single_flight initTTS "hi" .Kore [.Puck, .Charon] rfl rfl
  simpa using h

/-- C9: the cache and the pending map are keyed by the text alone.  Once a
first caller has requested `text` with voice `v1`, a later `prefetchTTS` or
`playTTS` with any voice `v2` issues no new Synthesizer call: while the
request is pending it just joins the shared promise, and once it completed
the later caller gets the cached bytes — which were synthesized by the only
Synthesizer call ever issued, the one carrying `v1`. -/
theorem voice_ignored_after_first_request (s0 : TTSState) (text : String)
    (v1 v2 : VoiceId) (payload : String) (bytes : List Nat) (s1 s2 : TTSState)
    (hc : mapGet s0.audioCache text = none)
    (hp : mapGet s0.pendingRequests text = none)
    (hpay : payload ≠ "")
    (hd : decodeBase64 payload = some bytes)
    (hs1 : s1 = (prefetchStart text v1 s0).1)
    (hs2 : s2 = (prefetchComplete text (.success (some payload)) s1).1) :
    s2.synthCalls = (s0.nextId, text, v1) :: s0.synthCalls ∧
    mapGet s2.audioCache text = some bytes ∧
    prefetchStart text v2 s2 = (s2, .alreadyCached) ∧
    playAcquire text v2 s2 = (s2, .usedCache bytes) ∧
    prefetchStart text v2 s1 = (s1, .waitOn s0.nextId) ∧
    playAcquire text v2 s1 = (s1, .awaitedPending s0.nextId) := by
  have hstart : prefetchStart text v1 s0
      = ({ s0 with pendingRequests := mapSet s0.pendingRequests text s0.nextId,
                   synthCalls := (s0.nextId, text, v1) :: s0.synthCalls,
                   nextId := s0.nextId + 1 }, .started s0.nextId) := by
    simp [prefetchStart, hc, hp]
  rw [hstart] at hs1
  have hs1c : mapGet s1.audioCache text = none := by rw [hs1]; exact hc
  have hs1p : mapGet s1.pendingRequests text = some s0.nextId := by
    rw [hs1]; exact mapGet_mapSet_self s0.pendingRequests text s0.nextId
  have hcomp : s2 = { s1 with
      audioCache := mapSet s1.audioCache text bytes,
      pendingRequests := mapDelete s1.pendingRequests text } := by
    rw [hs2]
    simp [prefetchComplete, prefetchTryBody, hpay, hd]
  have hs2c : mapGet s2.audioCache text = some bytes := by
    rw [hcomp]; exact mapGet_mapSet_self s1.audioCache text bytes
  refine ⟨?_, hs2c, ?_, ?_, ?_, ?_⟩
  · rw [hcomp, hs1]
  · simp [prefetchStart, hs2c]
  · simp [playAcquire, hs2c]
  · simp [prefetchStart, hs1c, hs1p]
  · simp [playAcquire, hs1c, hs1p]

/-- Witness for C9: first request with Kore, second caller asks for Puck,
and still receives the bytes fetched by the Kore request. -/
theorem voice_ignored_after_first_request_witness :
    ((prefetchComplete "hi" (.success (some "AAAAAA=="))
        (prefetchStart "hi" .Kore initTTS).1).1).synthCalls
      = [(0, "hi", VoiceId.Kore)] ∧
    prefetchStart "hi" .Puck
        ((prefetchComplete "hi" (.success (some "AAAAAA=="))
          (prefetchStart "hi" .Kore initTTS).1).1)
      = (((prefetchComplete "hi" (.success (some "AAAAAA=="))
          (prefetchStart "hi" .Kore initTTS).1).1), .alreadyCached) ∧
    playAcquire "hi" .Puck
        ((prefetchComplete "hi" (.success (some "AAAAAA=="))
          (prefetchStart "hi" .Kore initTTS).1).1)
      = (((prefetchComplete "hi" (.success (some "AAAAAA=="))
          (prefetchStart "hi" .Kore initTTS).1).1), .usedCache [0, 0, 0, 0]) := by
  have h := voice_ignored_after_first_request initTTS "hi" .Kore .Puck
    "AAAAAA==" [0, 0, 0, 0] _ _ rfl rfl (by decide) (by decide) rfl rfl
  exact ⟨h.1, h.2.2.1, h.2.2.2.1⟩

/-- C6 counterexample: what `prefetchTTS` stores is the base64-decoded byte
payload, and `playTTS` runs `pcmToAudioBuffer` — the derivation of the
time-domain sample buffer — again on every play of the same text: after one
successful prefetch of "hi" and two plays, the decode log for "hi" has two
entries, refuting "derived exactly once … decoding is not repeated when the
same text is replayed". -/
theorem replay_reruns_sample_decoding :
    ((playUseAudio "hi" (playUseAudio "hi"
        ((prefetchComplete "hi" (.success (some "AAAAAA=="))
          ((prefetchStart "hi" .Kore initTTS).1)).1)).1).1).decodeLog
      = ["hi", "hi"] ∧
    mapGet ((prefetchComplete "hi" (.success (some "AAAAAA=="))
        ((prefetchStart "hi" .Kore initTTS).1)).1).audioCache "hi"
      = some [0, 0, 0, 0] := by
  constructor <;> decide

/-- C6 amended: the base64-decoded byte payload is derived once and cached
immutably — a later `prefetchTTS` for a cached text is a pure no-op — but
the sample-buffer derivation (`pcmToAudioBuffer`) is re-executed from the
cached bytes on every play. -/
theorem replay_uses_cached_bytes (s : TTSState) (text : String)
    (bytes : List Nat) (v : VoiceId)
    (hc : mapGet s.audioCache text = some bytes) :
    prefetchStart text v s = (s, .alreadyCached) ∧
    playUseAudio text s
      = ({ s with decodeLog := text :: s.decodeLog },
         some (pcmToAudioBuffer bytes 24000)) := by
  constructor <;> simp [prefetchStart, playUseAudio, hc]

/-- Witness for the amended C6. -/
theorem replay_uses_cached_bytes_witness :
    prefetchStart "hi" .Puck ⟨[("hi", [0, 0])], [], [], 1, []⟩
      = (⟨[("hi", [0, 0])], [], [], 1, []⟩, .alreadyCached) ∧
    playUseAudio "hi" ⟨[("hi", [0, 0])], [], [], 1, []⟩
      = (⟨[("hi", [0, 0])], [], [], 1, ["hi"]⟩,
         some (pcmToAudioBuffer [0, 0] 24000)) :=
  replay_uses_cached_bytes ⟨[("hi", [0, 0])], [], [], 1, []⟩ "hi" [0, 0]
    .Puck (by decide)

/-- C3 counterexample: the payload "AAAB" base64-decodes to the three bytes
[0, 0, 1] — an odd length — yet nothing fails: `prefetchTTS` stores the
odd-length payload in the cache, and `pcmToAudioBuffer` silently truncates
the trailing byte, producing one sample instead of raising a `DecodeError`
(no such validation exists anywhere in the source). -/
theorem odd_payload_truncated_and_stored :
    decodeBase64 "AAAB" = some [0, 0, 1] ∧
    pcmToAudioBuffer [0, 0, 1] 24000
      = { numberOfChannels := 1, sampleRate := 24000, samples := [0] } ∧
    mapGet ((prefetchComplete "x" (.success (some "AAAB"))
        ((prefetchStart "x" .Kore initTTS).1)).1).audioCache "x"
      = some [0, 0, 1] := by
  refine ⟨by decide, ?_, by decide⟩
  simp [pcmToAudioBuffer, toInt16, List.range_succ]

/-- C3 amended: an odd byte length is not validated; decode always succeeds,
yields `⌊n / 2⌋` samples, and a trailing odd byte is silently dropped — the
output is identical to the decode of the payload without its last byte. -/
theorem pcm_truncates_trailing_byte (bytes : List Nat) (b : Nat) (sr : Nat)
    (h : bytes.length % 2 = 0) :
    (pcmToAudioBuffer bytes sr).samples.length = bytes.length / 2 ∧
    pcmToAudioBuffer (bytes ++ [b]) sr = pcmToAudioBuffer bytes sr := by
  constructor
  · simp [pcmToAudioBuffer]
  · have hlen : (bytes ++ [b]).length / 2 = bytes.length / 2 := by
      simp [List.length_append]
      omega
    unfold pcmToAudioBuffer
    rw [hlen]
    congr 1
    refine List.map_congr_left ?_
    intro i hi
    rw [List.mem_range] at hi
    have h1 : 2 * i < bytes.length := by omega
    have h2 : 2 * i + 1 < bytes.length := by omega
    rw [List.getD_append _ _ _ _ h1, List.getD_append _ _ _ _ h2]

/-- Witness for the amended C3. -/
theorem pcm_truncates_trailing_byte_witness :
    (pcmToAudioBuffer [5, 6] 24000).samples.length = 1 ∧
    pcmToAudioBuffer [5, 6, 7] 24000 = pcmToAudioBuffer [5, 6] 24000 :=
  pcm_truncates_trailing_byte [5, 6] 7 24000 rfl

/-- The reinterpreted 16-bit value always lies in [-32768, 32767]. -/
theorem toInt16_bounds (lo hi : Nat) :
    -32768 ≤ toInt16 lo hi ∧ toInt16 lo hi ≤ 32767 := by
  unfold toInt16
  have h1 : lo % 256 < 256 := Nat.mod_lt _ (by norm_num)
  have h2 : hi % 256 < 256 := Nat.mod_lt _ (by norm_num)
  split <;> omega

/-- Dividing a value of [-32768, 32767] by 32768 lands in [-1, 1]. -/
theorem sample_bounds (v : ℤ) (h1 : -32768 ≤ v) (h2 : v ≤ 32767) :
    -1 ≤ (v : ℚ) / 32768 ∧ (v : ℚ) / 32768 ≤ 1 := by
  have hv1 : (-32768 : ℚ) ≤ (v : ℚ) := by exact_mod_cast h1
  have hv2 : (v : ℚ) ≤ 32767 := by exact_mod_cast h2
  constructor
  · rw [le_div_iff₀ (by norm_num : (0 : ℚ) < 32768)]
    linarith
  · rw [div_le_iff₀ (by norm_num : (0 : ℚ) < 32768)]
    linarith

/-- C7: a well-formed payload of 2N bytes obtained from the base64 decode is
reinterpreted as N little-endian signed 16-bit integers; the resulting
buffer is mono, carries the 24000 Hz rate `playTTS` passes in, holds N
samples, and sample i is the i-th integer divided by 32768, hence lies in
[-1, 1].  (A payload of 4800 bytes is the instance N = 2400.) -/
theorem decode_pipeline (b64 : String) (bytes : List Nat) (n : Nat)
    (_hdec : decodeBase64 b64 = some bytes)
    (hlen : bytes.length = 2 * n) :
    (pcmToAudioBuffer bytes 24000).numberOfChannels = 1 ∧
    (pcmToAudioBuffer bytes 24000).sampleRate = 24000 ∧
    (pcmToAudioBuffer bytes 24000).samples.length = n ∧
    ∀ i, i < n →
      (pcmToAudioBuffer bytes 24000).samples.getD i 0
        = ((toInt16 (bytes.getD (2 * i) 0) (bytes.getD (2 * i + 1) 0) : ℤ) : ℚ)
            / 32768 ∧
      -1 ≤ (pcmToAudioBuffer bytes 24000).samples.getD i 0 ∧
      (pcmToAudioBuffer bytes 24000).samples.getD i 0 ≤ 1 := by
  refine ⟨rfl, rfl, ?_, ?_⟩
  · simp [pcmToAudioBuffer, hlen]
  · intro i hi
    have hi2 : i < bytes.length / 2 := by omega
    have hval : (pcmToAudioBuffer bytes 24000).samples.getD i 0
        = ((toInt16 (bytes.getD (2 * i) 0) (bytes.getD (2 * i + 1) 0) : ℤ) : ℚ)
            / 32768 := by
      simp [pcmToAudioBuffer, List.getD_eq_getElem?_getD, List.getElem?_map,
        List.getElem?_range hi2]
    refine ⟨hval, ?_, ?_⟩
    · rw [hval]
      exact (sample_bounds _ (toInt16_bounds _ _).1 (toInt16_bounds _ _).2).1
    · rw [hval]
      exact (sample_bounds _ (toInt16_bounds _ _).1 (toInt16_bounds _ _).2).2

/-- Witness for C7 on the payload "AAA=" (two zero bytes, N = 1). -/
theorem decode_pipeline_witness :
    (pcmToAudioBuffer [0, 0] 24000).samples.length = 1 ∧
    -1 ≤ (pcmToAudioBuffer [0, 0] 24000).samples.getD 0 0 ∧
    (pcmToAudioBuffer [0, 0] 24000).samples.getD 0 0 ≤ 1 := by
  have h := decode_pipeline "AAA=" [0, 0] 1 (by decide) rfl
  exact ⟨h.2.2.1, (h.2.2.2 0 (by norm_num)).2.1, (h.2.2.2 0 (by norm_num)).2.2⟩

/-- Counting `onEnded` firings for call `c` across one step: the handler set
by `playTTS` appends to `endedEvents` at `sourceEnded c` unconditionally,
and the no-audio branch appends at `playResolved c false`. -/
theorem step_endedEvents_count (s : PlayState) (e : PlayEvent) (c : Nat) :
    (step s e).endedEvents.count c
      = s.endedEvents.count c
        + (if e = PlayEvent.playResolved c false then 1 else 0)
        + (if e = PlayEvent.sourceEnded c then 1 else 0) := by
  cases e with
  | playStart c1 => simp [step, stopAudio_endedEvents]
  | stopCall => simp [step, stopAudio_endedEvents]
  | playResolved c1 b =>
    cases b
    · by_cases h : c1 = c
      · subst h; simp [step, List.count_cons]
      · simp [step, List.count_cons, h]
    · simp [step]
  | sourceEnded c1 =>
    by_cases h : c1 = c
    · subst h; simp [step, List.count_cons]
    · simp [step, List.count_cons, h]

/-- The total `onEnded` count for call `c` over a trace. -/
theorem runTrace_endedEvents_count (t : List PlayEvent) :
    ∀ (s : PlayState) (c : Nat),
      (runTrace t s).endedEvents.count c
        = s.endedEvents.count c + countResolvedFalse t c + countEnded t c := by
  induction t with
  | nil => intro s c; simp [runTrace, countResolvedFalse, countEnded]
  | cons e rest ih =>
    intro s c
    have hrun : runTrace (e :: rest) s = runTrace rest (step s e) := rfl
    rw [hrun, ih (step s e) c, step_endedEvents_count s e c]
    simp only [countResolvedFalse, countEnded, List.count_cons, beq_iff_eq]
    split_ifs <;> omega

theorem mem_callIds_of_resolved {t : List PlayEvent} {c : Nat}
    (h : 0 < countResolvedTrue t c + countResolvedFalse t c) :
    c ∈ callIds t := by
  by_cases h1 : 0 < countResolvedTrue t c
  · have hm : PlayEvent.playResolved c true ∈ t :=
      List.count_pos_iff.mp (by simpa [countResolvedTrue] using h1)
    exact List.mem_filterMap.mpr ⟨_, hm, rfl⟩
  · have h2 : 0 < countResolvedFalse t c := by omega
    have hm : PlayEvent.playResolved c false ∈ t :=
      List.count_pos_iff.mp (by simpa [countResolvedFalse] using h2)
    exact List.mem_filterMap.mpr ⟨_, hm, rfl⟩

/-- C1 amended: in every realizable complete interleaving, every `playTTS`
call whose audio resolution completes gets its `onEnded` invoked exactly
once — including a call that was superseded by a later `play` before its
audio resolved.  The `currentSource === source` test in the `ended` handler
suppresses only the clearing of the shared `currentSource` variable, never
the `onEnded` invocation, so a superseded call's callback is not
suppressed. -/
theorem play_onEnded_exactly_once (t : List PlayEvent) (c : Nat)
    (hv : ValidTrace t) (hcomp : CompleteTrace t)
    (hres : countResolvedTrue t c + countResolvedFalse t c = 1) :
    (runTrace t initPlay).endedEvents.count c = 1 := by
  have hmem : c ∈ callIds t := mem_callIds_of_resolved (by omega)
  obtain ⟨h1, h2, h3, h4⟩ := hv c hmem
  have h5 := hcomp c hmem
  have hcount := runTrace_endedEvents_count t initPlay c
  have h0 : initPlay.endedEvents.count c = 0 := rfl
  rw [h0] at hcount
  omega

/-- Witness for the amended C1 on a single completed play call. -/
theorem play_onEnded_exactly_once_witness :
    (runTrace [.playStart 5, .playResolved 5 true, .sourceEnded 5]
      initPlay).endedEvents.count 5 = 1 :=
  play_onEnded_exactly_once
    [.playStart 5, .playResolved 5 true, .sourceEnded 5] 5
    (by unfold ValidTrace; decide) (by unfold CompleteTrace; decide)
    (by decide)

/-- C1 counterexample: call 0 plays text A, call 1 plays text B and begins
(`playStart 1`) before A's audio resolves (`playResolved 0 true` comes
later), exactly the claimed scenario.  Both fetches succeed, both sources
start and later deliver their `ended` events.  Call 0's `onEnded` fires
once — the claim that the superseded call's `onEnded` is never invoked is
false, because the handler's currency check guards only the
`currentSource = null` assignment. -/
theorem superseded_onEnded_still_fires :
    ValidTrace [.playStart 0, .playStart 1, .playResolved 0 true,
      .playResolved 1 true, .sourceEnded 0, .sourceEnded 1] ∧
    CompleteTrace [.playStart 0, .playStart 1, .playResolved 0 true,
      .playResolved 1 true, .sourceEnded 0, .sourceEnded 1] ∧
    (runTrace [.playStart 0, .playStart 1, .playResolved 0 true,
      .playResolved 1 true, .sourceEnded 0, .sourceEnded 1]
      initPlay).endedEvents.count 0 = 1 :=
  ⟨by unfold ValidTrace; decide, by unfold CompleteTrace; decide, by decide⟩

/-- C4 counterexample: in the same scenario — `play(1)` begins before
`play(0)`'s audio resolves — once both resolutions complete, the sources of
both calls are audible at the same instant, and the tracked
`currentSource` is call 1's source while call 0's source is still sounding:
the superseding call's entry-time `stopAudio()` ran before call 0's source
existed, so nothing ever stops it.  (The four-event trace is the prefix of a
realizable complete trace, witnessed by the first two conjuncts.) -/
theorem two_sources_audible_simultaneously :
    ValidTrace [.playStart 0, .playStart 1, .playResolved 0 true,
      .playResolved 1 true, .sourceEnded 0, .sourceEnded 1] ∧
    CompleteTrace [.playStart 0, .playStart 1, .playResolved 0 true,
      .playResolved 1 true, .sourceEnded 0, .sourceEnded 1] ∧
    (runTrace [.playStart 0, .playStart 1, .playResolved 0 true,
      .playResolved 1 true] initPlay).audible = [1, 0] ∧
    (runTrace [.playStart 0, .playStart 1, .playResolved 0 true,
      .playResolved 1 true] initPlay).currentSource = some 1 :=
  ⟨by unfold ValidTrace; decide, by unfold CompleteTrace; decide,
   by decide, by decide⟩

/-- C4 amended: what does hold is the synchronous half of the claim: the
`playTTS` entry event runs `stopAudio()` before any suspension, so the
previously tracked handle is halted (no longer audible) and untracked
before the new call's resolution begins.  Exclusivity of the output device
is not guaranteed when two `play` calls overlap during resolution. -/
theorem playStart_stops_tracked_source (s : PlayState) (c d : Nat)
    (hcur : s.currentSource = some d) (hh : d ∉ s.halted) :
    (step s (.playStart c)).currentSource = none ∧
    d ∉ (step s (.playStart c)).audible := by
  constructor
  · exact stopAudio_currentSource s
  · show d ∉ (stopAudio s).audible
    rw [stopAudio_eq, hcur]
    simp [hh, List.mem_filter]

/-- Witness for the amended C4. -/
theorem playStart_stops_tracked_source_witness :
    (step ⟨some 7, [7], [], []⟩ (.playStart 1)).currentSource = none ∧
    7 ∉ (step ⟨some 7, [7], [], []⟩ (.playStart 1)).audible :=
  playStart_stops_tracked_source ⟨some 7, [7], [], []⟩ 1 7 rfl (by simp)
